import Mathlib

/-!
Verification of the libarchive-android JNI binding
(`src/library/src/main/jni/archive-jni.c`) against its specification.

The development has two layers.

The `Jni` namespace is a shallow embedding of the binding code itself:
each Lean function mirrors one C function, with the JNI environment made
explicit (pending exceptions, pinned arrays, global references) and every
call into the native libarchive engine replaced by its integer/buffer
result taken as a parameter, since the binding treats those calls as
opaque.

The `Core` namespace models the streaming archive codec that the binding
delegates to.  That engine's sources are not part of the repository
snapshot, so, as the specification itself does (it specifies the codec
core rather than the glue), the `Core` definitions are modelled from the
spec's words; each such definition says so in its doc comment.
-/

namespace Jni

/-- Result/error codes from `archive.h` used by the binding
(`ARCHIVE_OK`, `ARCHIVE_EOF`, `ARCHIVE_FATAL`). -/
def ARCHIVE_OK : Int := 0

/-- End-of-archive code from `archive.h`. -/
def ARCHIVE_EOF : Int := 1

/-- Fatal error code from `archive.h`. -/
def ARCHIVE_FATAL : Int := -30

/-- Release mode from `jni.h`: free the pinned copy without copying it
back into the Java array. -/
def JNI_ABORT : Int := 2

/-- Commit release mode (`0` in `jni.h`): copy the pinned copy back into
the Java array. -/
def JNI_COMMIT_FREE : Int := 0

/-- A pending Java throwable as the binding inspects it:
whether `IsInstanceOf(ArchiveException)` holds, the `getCode()` result
(meaningful when it is an `ArchiveException`), and the `getMessage()`
result. -/
structure Throwable where
  isArchive : Bool
  code : Int
  message : Option String
deriving DecidableEq, Repr

/-- The error state attached to a `struct archive` by `archive_set_error`:
a numeric code and an optional message, as read back by `archive_errno`
and `archive_error_string`. -/
structure ArchiveError where
  code : Int
  message : Option String
deriving DecidableEq, Repr

/-- Embeds `setArchiveErrorFromException` (archive-jni.c:187).  Input is
the pending exception (`ExceptionOccurred`) and the archive's current
error state; output is the C function's `bool` result and the new error
state.  When an exception is pending it is cleared, the code is the
exception's own code if it is an `ArchiveException` and `ARCHIVE_FATAL`
otherwise, and the throwable's message becomes the error message. -/
def setArchiveErrorFromException (pending : Option Throwable)
    (lastError : Option ArchiveError) : Bool × Option ArchiveError :=
  match pending with
  | none => (false, lastError)
  | some throwable =>
    let errorCode : Int := if throwable.isArchive then throwable.code else ARCHIVE_FATAL
    (true, some { code := errorCode, message := throwable.message })

/-- A `java.nio.ByteBuffer` backed by a heap array, as the binding reads
it through `position()`, `limit()` and the backing array contents. -/
structure ByteBuffer where
  position : Int
  limit : Int
  contents : List Int
deriving DecidableEq, Repr

/-- Embeds `ReleaseByteArrayElements`: with `JNI_ABORT` the pinned copy is
discarded and the Java array keeps its original contents; with mode `0`
the (possibly natively modified) copy is written back. -/
def releaseByteArrayElements (original mutated : List Int) (mode : Int) : List Int :=
  if mode = JNI_ABORT then original else mutated

/-- Outcome of a JNI entry point that may update a buffer and may leave a
pending `ArchiveException`. -/
structure BufferOutcome where
  buffer : ByteBuffer
  exception : Option ArchiveError
deriving DecidableEq, Repr

/-- Embeds `Java_..._Archive_readData` (archive-jni.c:1449) after a
successful `getByteBufferBuffer`.  `nativeResult` is the value returned by
`archive_read_data` and `nativeMutated` the pinned copy's contents after
that call; `lastError` is the archive error thrown on failure.  The pinned
array is released with mode `0` (commit) before the sign check; a negative
result raises, otherwise the buffer position advances by the count. -/
def readData (buf : ByteBuffer) (nativeResult : Int) (nativeMutated : List Int)
    (lastError : ArchiveError) : BufferOutcome :=
  let contents := releaseByteArrayElements buf.contents nativeMutated JNI_COMMIT_FREE
  if nativeResult < 0 then
    { buffer := { buf with contents := contents }, exception := some lastError }
  else
    { buffer := { buf with contents := contents, position := buf.position + nativeResult },
      exception := none }

/-- Embeds `Java_..._Archive_writeData` (archive-jni.c:2477) after a
successful `getByteBufferBuffer`.  `nativeResult` is the value returned by
`archive_write_data` and `nativeMutated` the pinned copy's contents after
that call.  The pinned array is released with `JNI_ABORT` (discard) before
the sign check; a negative result raises, otherwise the buffer position
advances by the accepted count. -/
def writeData (buf : ByteBuffer) (nativeResult : Int) (nativeMutated : List Int)
    (lastError : ArchiveError) : BufferOutcome :=
  let contents := releaseByteArrayElements buf.contents nativeMutated JNI_ABORT
  if nativeResult < 0 then
    { buffer := { buf with contents := contents }, exception := some lastError }
  else
    { buffer := { buf with contents := contents, position := buf.position + nativeResult },
      exception := none }

/-- Embeds `Java_..._Archive_seekData` (archive-jni.c:1479): the value
returned by `archive_seek_data` is returned to Java, with an exception
raised first whenever it is negative. -/
def seekData (nativePosition : Int) (lastError : ArchiveError) :
    Int × Option ArchiveError :=
  if nativePosition < 0 then (nativePosition, some lastError) else (nativePosition, none)

/-- Embeds `Java_..._Archive_readNextHeader` (archive-jni.c:1393):
`nativeResult` is the `archive_read_next_header` code and `entryPtr` the
entry it produced on success.  A nonzero code yields a null return, with
an exception raised unless the code is `ARCHIVE_EOF`. -/
def readNextHeaderJni (nativeResult : Int) (entryPtr : Nat) (lastError : ArchiveError) :
    Option Nat × Option ArchiveError :=
  if nativeResult ≠ 0 then
    if nativeResult ≠ ARCHIVE_EOF then (none, some lastError) else (none, none)
  else (some entryPtr, none)

/-- The per-archive bookkeeping record `struct ArchiveJniData`
(archive-jni.c:36).  Global references are identifiers (`Nat`); pinned
arrays and the cached passphrase are byte lists; `Option` marks whether
the resource is currently held.  `hasReadClientData` guards the list of
callback-data references exactly as the C flag does. -/
structure JniData where
  openMemoryJavaArray : Option Nat
  openMemoryArray : Option (List Int)
  writeOpenMemoryJavaBuffer : Option Nat
  hasReadClientData : Bool
  readClientData : List Nat
  writeClientData : Option Nat
  readCallback : Option Nat
  readJavaArray : Option Nat
  readArray : Option (List Int)
  skipCallback : Option Nat
  seekCallback : Option Nat
  writeCallback : Option Nat
  openCallback : Option Nat
  closeCallback : Option Nat
  freeCallback : Option Nat
  switchCallback : Option Nat
  passphraseClientData : Option Nat
  passphraseCallback : Option Nat
  passphrase : Option (List Int)
deriving DecidableEq, Repr

/-- All session-owned cross-boundary resources have been released: no
global reference, pinned array or cached passphrase is still held. -/
def JniData.released (d : JniData) : Prop :=
  d.openMemoryJavaArray = none ∧ d.openMemoryArray = none ∧
  d.writeOpenMemoryJavaBuffer = none ∧ d.readClientData = [] ∧
  d.writeClientData = none ∧ d.readCallback = none ∧
  d.readJavaArray = none ∧ d.readArray = none ∧
  d.skipCallback = none ∧ d.seekCallback = none ∧
  d.writeCallback = none ∧ d.openCallback = none ∧
  d.closeCallback = none ∧ d.freeCallback = none ∧
  d.switchCallback = none ∧ d.passphraseClientData = none ∧
  d.passphraseCallback = none ∧ d.passphrase = none

instance (d : JniData) : Decidable d.released := by
  unfold JniData.released
  infer_instance

/-- Embeds `freeArchiveJniData` (archive-jni.c:2687), step by step in the
C function's order: release the open-memory pinned array, delete its
array reference, flush and drop the write-open-memory buffer reference,
delete every read-callback-data reference, then each callback reference
in turn, and finally free the cached passphrase. -/
def freeArchiveJniData (d : JniData) : JniData :=
  let d := { d with openMemoryArray := none }
  let d := { d with openMemoryJavaArray := none }
  let d := { d with writeOpenMemoryJavaBuffer := none }
  let d := { d with readClientData := [] }
  let d := { d with writeClientData := none }
  let d := { d with readCallback := none }
  let d := { d with readArray := none }
  let d := { d with readJavaArray := none }
  let d := { d with skipCallback := none }
  let d := { d with seekCallback := none }
  let d := { d with writeCallback := none }
  let d := { d with openCallback := none }
  let d := { d with closeCallback := none }
  let d := { d with freeCallback := none }
  let d := { d with switchCallback := none }
  let d := { d with passphraseClientData := none }
  let d := { d with passphraseCallback := none }
  { d with passphrase := none }

/-- Embeds `closeArchiveJniData` (archive-jni.c:1688): releases the
buffers pinned for open-memory reads/writes, the read-callback buffer and
the cached passphrase, leaving callback references installed. -/
def closeArchiveJniData (d : JniData) : JniData :=
  let d := { d with openMemoryArray := none }
  let d := { d with openMemoryJavaArray := none }
  let d := { d with writeOpenMemoryJavaBuffer := none }
  let d := { d with readArray := none }
  let d := { d with readJavaArray := none }
  { d with passphrase := none }

/-- Embeds `Java_..._Archive_free` (archive-jni.c:2729): `archive_free`
runs first (its code is `nativeResult`), then `freeArchiveJniData`
releases every session-owned resource, and only then is any error
reported to the caller. -/
def archiveFree (nativeResult : Int) (d : JniData) (lastError : ArchiveError) :
    JniData × Option ArchiveError :=
  let d := freeArchiveJniData d
  (d, if nativeResult ≠ 0 then some lastError else none)

/-- Embeds `Java_..._Archive_readClose` (archive-jni.c:1720):
`closeArchiveJniData` releases the held buffers and passphrase before
`archive_read_close` runs (its code is `nativeResult`), so the release
happens before any error is reported. -/
def readClose (nativeResult : Int) (d : JniData) (lastError : ArchiveError) :
    JniData × Option ArchiveError :=
  let d := closeArchiveJniData d
  (d, if nativeResult ≠ 0 then some lastError else none)

/-- Embeds `mallocStringFromBytes` (archive-jni.c:60): a null Java byte
array yields a null C string; otherwise a NUL-terminated copy is
allocated, which can fail (`mallocOk = false`) yielding null as well. -/
def mallocStringFromBytes (javaBytes : Option (List Int)) (mallocOk : Bool) :
    Option (List Int) :=
  match javaBytes with
  | none => none
  | some bytes => if mallocOk then some bytes else none

/-- Outcome of an entry point taking an optional byte-string argument:
whether the underlying libarchive call ran, the C-string argument it was
given, and any pending exception. -/
structure StringCallOutcome where
  nativeCalled : Bool
  nativeArg : Option (List Int)
  exception : Option ArchiveError
deriving DecidableEq, Repr

/-- The common shape of the binding's optional-byte-string entry points
(`readOpenFileName`, `readAddPassphrase`, the option setters): convert
with `mallocStringFromBytes`, raise `ARCHIVE_FATAL` only when a non-null
argument failed to convert, otherwise pass the (possibly null) C string
to the underlying call, whose code is `nativeResult`. -/
def callWithOptionalString (javaBytes : Option (List Int)) (mallocOk : Bool)
    (nativeResult : Int) (lastError : ArchiveError) : StringCallOutcome :=
  let string := mallocStringFromBytes javaBytes mallocOk
  if javaBytes.isSome ∧ string.isNone then
    { nativeCalled := false, nativeArg := none,
      exception := some { code := ARCHIVE_FATAL, message := some "mallocStringFromBytes" } }
  else
    { nativeCalled := true, nativeArg := string,
      exception := if nativeResult ≠ 0 then some lastError else none }

/-- Embeds `Java_..._Archive_readOpenFileName` (archive-jni.c:1322);
`nativeResult` is the `archive_read_open_filename` code. -/
def readOpenFileName (javaFileName : Option (List Int)) (mallocOk : Bool)
    (nativeResult : Int) (lastError : ArchiveError) : StringCallOutcome :=
  callWithOptionalString javaFileName mallocOk nativeResult lastError

/-- Embeds `Java_..._Archive_readAddPassphrase` (archive-jni.c:1614);
`nativeResult` is the `archive_read_add_passphrase` code. -/
def readAddPassphrase (javaPassphrase : Option (List Int)) (mallocOk : Bool)
    (nativeResult : Int) (lastError : ArchiveError) : StringCallOutcome :=
  callWithOptionalString javaPassphrase mallocOk nativeResult lastError

/-- One callback slot of `ArchiveJniData` together with the multiset of
live JNI global references created for it: `slot` is the installed
reference, `live` the references created and not yet deleted. -/
structure CallbackSlotState where
  slot : Option Nat
  live : List Nat
deriving DecidableEq, Repr

/-- Embeds `DeleteGlobalRef`: deleting a null reference is a no-op,
otherwise the reference is removed from the live set. -/
def deleteGlobalRef (live : List Nat) : Option Nat → List Nat
  | none => live
  | some r => live.erase r

/-- Embeds the common body of the `readSet*Callback` entry points
(`readSetOpenCallback` archive-jni.c:1004, `readSetReadCallback`
archive-jni.c:1066, `readSetSwitchCallback` archive-jni.c:1227):
`NewGlobalRef` on the incoming callback (null stays null; creation can
fail when `refOk = false`, raising without touching the slot); then the
underlying `archive_read_set_*_callback` call (code `nativeResult`) — on
failure the fresh reference is deleted and the slot kept, on success the
previous reference is deleted and the fresh one installed. -/
def setCallbackSlot (st : CallbackSlotState) (javaCallback : Bool) (newRef : Nat)
    (refOk : Bool) (nativeResult : Int) (lastError : ArchiveError) :
    CallbackSlotState × Option ArchiveError :=
  let javaCallbackRef : Option Nat := if javaCallback ∧ refOk then some newRef else none
  if javaCallback ∧ javaCallbackRef.isNone then
    (st, some { code := ARCHIVE_FATAL, message := some "NewGlobalRef" })
  else
    let live₁ := match javaCallbackRef with
      | some r => r :: st.live
      | none => st.live
    if nativeResult ≠ 0 then
      ({ slot := st.slot, live := deleteGlobalRef live₁ javaCallbackRef }, some lastError)
    else
      ({ slot := javaCallbackRef, live := deleteGlobalRef live₁ st.slot }, none)

/-- The slot invariant: the live references created for this slot are
exactly the installed one — so each slot holds at most one live
reference. -/
def CallbackSlotState.wf (st : CallbackSlotState) : Prop :=
  st.live = match st.slot with
    | some r => [r]
    | none => []

instance (st : CallbackSlotState) : Decidable st.wf := by
  unfold CallbackSlotState.wf
  infer_instance

end Jni

namespace Core

/-- Modelled from the spec: §3 EntryMetadata — the structured
representation of one archive member, with pathname as a raw byte
string, a type tag, permission bits, size, a modification timestamp with
seconds and nanoseconds, and owner/group ids.  The engine holding this
record is not in the repository snapshot. -/
structure EntryMetadata where
  pathname : List Nat
  filetype : Nat
  perm : Nat
  size : Nat
  mtimeSec : Nat
  mtimeNsec : Nat
  uid : Nat
  gid : Nat
deriving DecidableEq, Repr

/-- Modelled from the spec: the projection of an `EntryMetadata` onto the
fields the model container format can represent — a one-byte type tag,
16-bit permission bits, 64-bit size, seconds-only 64-bit timestamp and
64-bit ids; nanoseconds are not representable and read back as zero. -/
def representable (m : EntryMetadata) : EntryMetadata :=
  { m with
    filetype := m.filetype % 2 ^ 8
    perm := m.perm % 2 ^ 16
    size := m.size % 2 ^ 64
    mtimeSec := m.mtimeSec % 2 ^ 64
    mtimeNsec := 0
    uid := m.uid % 2 ^ 64
    gid := m.gid % 2 ^ 64 }

/-- One archive member as exchanged with the caller: its metadata and its
data bytes. -/
structure Entry where
  meta : EntryMetadata
  data : List Nat
deriving DecidableEq, Repr

/-- Serialize a natural as `w` bytes, little-endian (values reduced
modulo `256 ^ w`). -/
def natToBytes : Nat → Nat → List Nat
  | 0, _ => []
  | w + 1, n => n % 256 :: natToBytes w (n / 256)

/-- Read back a little-endian byte list as a natural. -/
def bytesToNat : List Nat → Nat
  | [] => 0
  | b :: bs => b % 256 + 256 * bytesToNat bs

/-- Read exactly `w` bytes off the front of a stream, failing on a
truncated stream. -/
def readExact (w : Nat) (s : List Nat) : Option (List Nat × List Nat) :=
  if w ≤ s.length then some (s.take w, s.drop w) else none

/-- Modelled from the spec: §4.3 — the framing `writeHeader` emits for a
declared `EntryMetadata` in the model fixed-record container format:
64-bit pathname length, the raw pathname bytes, then the representable
scalar fields in fixed-width little-endian form. -/
def headerBytes (m : EntryMetadata) : List Nat :=
  natToBytes 8 m.pathname.length ++ m.pathname ++ natToBytes 1 m.filetype ++
    natToBytes 2 m.perm ++ natToBytes 8 m.size ++ natToBytes 8 m.mtimeSec ++
    natToBytes 8 m.uid ++ natToBytes 8 m.gid

/-- Modelled from the spec: §4.3 `Init→HeaderRead` — parse the next
member's framing off the stream, populating an `EntryMetadata`; `none`
on a truncated header. -/
def parseHeader (s : List Nat) : Option (EntryMetadata × List Nat) :=
  (readExact 8 s).bind fun p₁ =>
  (readExact (bytesToNat p₁.1) p₁.2).bind fun p₂ =>
  (readExact 1 p₂.2).bind fun p₃ =>
  (readExact 2 p₃.2).bind fun p₄ =>
  (readExact 8 p₄.2).bind fun p₅ =>
  (readExact 8 p₅.2).bind fun p₆ =>
  (readExact 8 p₆.2).bind fun p₇ =>
  (readExact 8 p₇.2).bind fun p₈ =>
  some ({ pathname := p₂.1, filetype := bytesToNat p₃.1, perm := bytesToNat p₄.1,
          size := bytesToNat p₅.1, mtimeSec := bytesToNat p₆.1, mtimeNsec := 0,
          uid := bytesToNat p₇.1, gid := bytesToNat p₈.1 }, p₈.2)

/-- Modelled from the spec: §7 error taxonomy restricted to what the
session operations below report. -/
inductive SessionError where
  | protocolViolation
  | truncatedArchive
  | corruptHeader
deriving DecidableEq, Repr

/-- A session-operation result: a value or a `SessionError`. -/
inductive CodecResult (α : Type) where
  | ok (value : α)
  | error (e : SessionError)
deriving DecidableEq, Repr

/-- Modelled from the spec: §4.3 write-side states — no entry open, an
entry open with its declared size and the bytes written so far, or the
session closed. -/
inductive WriteState where
  | ready
  | entryOpen (declared : Nat) (written : Nat)
  | closed
deriving DecidableEq, Repr

/-- Modelled from the spec: §4.4 write-mode `ArchiveSession` — the output
produced so far and the entry-writing state machine. -/
structure WriteSession where
  out : List Nat
  state : WriteState
deriving DecidableEq, Repr

/-- Modelled from the spec: §4.3/§4.4 `writeHeader` — emits framing for
the declared metadata before any data bytes and opens the entry; calling
it with an entry already open is a protocol violation, rejected without
touching the output. -/
def writeHeader (s : WriteSession) (m : EntryMetadata) : WriteSession × Option SessionError :=
  match s.state with
  | .ready =>
    ({ out := s.out ++ 1 :: headerBytes m, state := .entryOpen (m.size % 2 ^ 64) 0 }, none)
  | _ => (s, some .protocolViolation)

/-- Modelled from the spec: §4.4 `writeData(bytes) -> bytesAccepted` —
appends at most the declared remainder of the open entry and reports the
accepted count (possibly less than offered). -/
def writeData (s : WriteSession) (bytes : List Nat) :
    (WriteSession × Nat) × Option SessionError :=
  match s.state with
  | .entryOpen declared written =>
    let accepted := min bytes.length (declared - written)
    (({ out := s.out ++ bytes.take accepted, state := .entryOpen declared (written + accepted) },
      accepted), none)
  | _ => ((s, 0), some .protocolViolation)

/-- Modelled from the spec: §4.4 `finishEntry` — closes the open entry,
zero-padding any unwritten remainder of the declared size. -/
def finishEntry (s : WriteSession) : WriteSession × Option SessionError :=
  match s.state with
  | .entryOpen declared written =>
    ({ out := s.out ++ List.replicate (declared - written) 0, state := .ready }, none)
  | _ => (s, some .protocolViolation)

/-- Modelled from the spec: §4.4 write-mode `close` — emits the
end-of-archive marker and closes the session. -/
def closeWrite (s : WriteSession) : WriteSession × Option SessionError :=
  match s.state with
  | .ready => ({ out := s.out ++ [0], state := .closed }, none)
  | _ => (s, some .protocolViolation)

/-- One full entry through the write-session API: `writeHeader`, one
`writeData` with the entry's bytes, then `finishEntry`. -/
def writeEntry (s : WriteSession) (e : Entry) : CodecResult WriteSession :=
  match writeHeader s e.meta with
  | (_, some err) => .error err
  | (s₁, none) =>
    match writeData s₁ e.data with
    | (_, some err) => .error err
    | ((s₂, _), none) =>
      match finishEntry s₂ with
      | (_, some err) => .error err
      | (s₃, none) => .ok s₃

/-- The caller's write loop over a list of entries. -/
def writeEntriesLoop : WriteSession → List Entry → CodecResult WriteSession
  | s, [] => .ok s
  | s, e :: rest =>
    match writeEntry s e with
    | .error err => .error err
    | .ok s₁ => writeEntriesLoop s₁ rest

/-- Produce an archive byte stream from a list of entries through the
write-session API (`writeHeader`, `writeData`, `finishEntry`, `close`). -/
def writeArchive (entries : List Entry) : CodecResult (List Nat) :=
  match writeEntriesLoop { out := [], state := .ready } entries with
  | .error err => .error err
  | .ok s =>
    match closeWrite s with
    | (_, some err) => .error err
    | (s₁, none) => .ok s₁.out

/-- Modelled from the spec: §4.4 read-mode `ArchiveSession` — the
remaining input, the unread byte count of the open entry, and whether
end-of-archive has been reached. -/
structure ReadSession where
  stream : List Nat
  current : Option Nat
  atEof : Bool
deriving DecidableEq, Repr

/-- Modelled from the spec: §4.4 `nextHeader() -> EntryMetadata |
EndOfArchive`, with §7's distinction between exhaustion and a failed
header read. -/
inductive NextHeaderResult where
  | entry (m : EntryMetadata)
  | endOfArchive
  | failed (e : SessionError)
deriving DecidableEq, Repr

/-- Modelled from the spec: §4.3 `EntryDone→HeaderRead` and
`EntryDone→Closed` — skip any unread bytes of the previous entry, then
parse the next marker: the end marker signals exhaustion (not an error,
and repeatable), an entry marker parses the header and opens the entry,
anything else is a failed header read. -/
def readNextHeader (s : ReadSession) : NextHeaderResult × ReadSession :=
  if s.atEof then (.endOfArchive, s)
  else
    let stream := match s.current with
      | some remaining => s.stream.drop remaining
      | none => s.stream
    match stream with
    | [] => (.failed .truncatedArchive, { stream := [], current := none, atEof := false })
    | marker :: rest =>
      if marker = 0 then (.endOfArchive, { stream := rest, current := none, atEof := true })
      else if marker = 1 then
        match parseHeader rest with
        | some (m, rest₂) =>
          (.entry m, { stream := rest₂, current := some m.size, atEof := false })
        | none => (.failed .truncatedArchive, { stream := rest, current := none, atEof := false })
      else (.failed .corruptHeader, { stream := rest, current := none, atEof := false })

/-- Modelled from the spec: §4.4 `readData(maxLen) -> bytes | EndOfEntry`
— return up to `maxLen` of the open entry's unread bytes; an empty result
signals end-of-entry-data, not an error. -/
def readEntryData (s : ReadSession) (maxLen : Nat) : List Nat × ReadSession :=
  match s.current with
  | some remaining =>
    let n := min maxLen remaining
    (s.stream.take n,
     { stream := s.stream.drop n, current := some (remaining - n), atEof := s.atEof })
  | none => ([], s)

/-- Read the open entry's data to its end. -/
def readWholeEntryData (s : ReadSession) : List Nat × ReadSession :=
  match s.current with
  | some remaining => readEntryData s remaining
  | none => ([], s)

/-- The caller's read loop: iterate `readNextHeader` and drain each
entry's data until end-of-archive; `fuel` bounds the number of headers. -/
def readEntries : Nat → ReadSession → CodecResult (List Entry)
  | 0, _ => .error .truncatedArchive
  | fuel + 1, s =>
    match readNextHeader s with
    | (.endOfArchive, _) => .ok []
    | (.failed e, _) => .error e
    | (.entry m, s₁) =>
      let step := readWholeEntryData s₁
      match readEntries fuel step.2 with
      | .ok entries => .ok ({ meta := m, data := step.1 } :: entries)
      | .error e => .error e

/-- Re-open a produced byte stream through the read-session API and
collect all entries. -/
def readArchive (stream : List Nat) : CodecResult (List Entry) :=
  readEntries (stream.length + 1) { stream := stream, current := none, atEof := false }

/-- The serialized form of one entry: entry marker, header framing, data. -/
def encodeEntry (e : Entry) : List Nat :=
  1 :: (headerBytes e.meta ++ e.data)

/-- The serialized bodies of a list of entries. -/
def encodeBody : List Entry → List Nat
  | [] => []
  | e :: rest => encodeEntry e ++ encodeBody rest

/-- An entry as the target format reproduces it: metadata projected onto
the representable fields, data unchanged. -/
def normalizeEntry (e : Entry) : Entry :=
  { meta := representable e.meta, data := e.data }

/-- Modelled from the spec: §4.4 passphrase handling — the session walks
the archive's entries (each optionally protected by a required secret),
invokes the passphrase-provider collaborator only when no cached secret
fits, and caches the returned secret for the remainder of the session.
The provider is assumed to return the required secret; the result is the
number of provider invocations. -/
def passphraseRun : List (Option (List Nat)) → List (List Nat) → Nat → Nat
  | [], _, calls => calls
  | none :: rest, cache, calls => passphraseRun rest cache calls
  | some p :: rest, cache, calls =>
    if p ∈ cache then passphraseRun rest cache calls
    else passphraseRun rest (p :: cache) (calls + 1)

/-- An entry the write session can represent exactly: the data length
matches the declared size and the 64-bit size/pathname-length fields are
in range. -/
def goodEntry (e : Entry) : Prop :=
  e.data.length = e.meta.size ∧ e.meta.size < 2 ^ 64 ∧ e.meta.pathname.length < 2 ^ 64

instance (e : Entry) : Decidable (goodEntry e) := by
  unfold goodEntry
  infer_instance

end Core

namespace Core

theorem natToBytes_length (w n : Nat) : (natToBytes w n).length = w := by
  induction w generalizing n with
  | zero => rfl
  | succ w ih => simp [natToBytes, ih]

theorem mod_mul_decomp (n a b : Nat) : n % (a * b) = a * (n / a % b) + n % a := by
  conv_lhs => rw [← Nat.div_add_mod (n % (a * b)) a]
  rw [Nat.mod_mul_right_div_self, Nat.mod_mod_of_dvd _ ⟨b, rfl⟩]

theorem bytesToNat_natToBytes (w n : Nat) :
    bytesToNat (natToBytes w n) = n % 256 ^ w := by
  induction w generalizing n with
  | zero => simp [natToBytes, bytesToNat, Nat.mod_one]
  | succ w ih =>
    simp only [natToBytes, bytesToNat, ih]
    rw [Nat.mod_mod_of_dvd _ dvd_rfl, pow_succ, mul_comm (256 ^ w) 256, mod_mul_decomp]
    exact Nat.add_comm _ _

theorem readExact_append (xs rest : List Nat) (w : Nat) (h : xs.length = w) :
    readExact w (xs ++ rest) = some (xs, rest) := by
  subst h
  rw [readExact, if_pos]
  · rw [List.take_left, List.drop_left]
  · simp

theorem parseHeader_append (m : EntryMetadata) (rest : List Nat)
    (h : m.pathname.length < 2 ^ 64) :
    parseHeader (headerBytes m ++ rest) = some (representable m, rest) := by
  have h256 : (256 : Nat) ^ 8 = 2 ^ 64 := by norm_num
  have hlen : bytesToNat (natToBytes 8 m.pathname.length) = m.pathname.length := by
    rw [bytesToNat_natToBytes, h256, Nat.mod_eq_of_lt h]
  simp only [parseHeader, headerBytes, List.append_assoc]
  rw [readExact_append _ _ _ (natToBytes_length 8 _), Option.some_bind, hlen,
    readExact_append _ _ _ rfl, Option.some_bind,
    readExact_append _ _ _ (natToBytes_length 1 _), Option.some_bind,
    readExact_append _ _ _ (natToBytes_length 2 _), Option.some_bind,
    readExact_append _ _ _ (natToBytes_length 8 _), Option.some_bind,
    readExact_append _ _ _ (natToBytes_length 8 _), Option.some_bind,
    readExact_append _ _ _ (natToBytes_length 8 _), Option.some_bind,
    readExact_append _ _ _ (natToBytes_length 8 _), Option.some_bind]
  have hft : (256 : Nat) ^ 1 = 2 ^ 8 := by norm_num
  have hpm : (256 : Nat) ^ 2 = 2 ^ 16 := by norm_num
  simp only [bytesToNat_natToBytes, h256, hft, hpm, representable]

theorem writeEntry_ready (out : List Nat) (e : Entry) (hg : goodEntry e) :
    writeEntry { out := out, state := .ready } e =
      .ok { out := out ++ encodeEntry e, state := .ready } := by
  obtain ⟨hd, hs, -⟩ := hg
  have hmod : e.meta.size % 2 ^ 64 = e.data.length := by rw [Nat.mod_eq_of_lt hs, hd]
  simp only [writeEntry, writeHeader, writeData, finishEntry, encodeEntry, hmod,
    Nat.sub_zero, Nat.zero_add, Nat.min_self, List.take_length, Nat.sub_self,
    List.replicate_zero, List.append_nil, List.append_assoc, List.cons_append]

theorem writeEntriesLoop_ready (entries : List Entry) (out : List Nat)
    (hg : ∀ e ∈ entries, goodEntry e) :
    writeEntriesLoop { out := out, state := .ready } entries =
      .ok { out := out ++ encodeBody entries, state := .ready } := by
  induction entries generalizing out with
  | nil => simp [writeEntriesLoop, encodeBody]
  | cons e rest ih =>
    simp only [writeEntriesLoop, writeEntry_ready out e (hg e (by simp)),
      ih (out ++ encodeEntry e) (fun x hx => hg x (by simp [hx]))]
    simp [encodeBody, List.append_assoc]

theorem writeArchive_eq (entries : List Entry) (hg : ∀ e ∈ entries, goodEntry e) :
    writeArchive entries = .ok (encodeBody entries ++ [0]) := by
  simp only [writeArchive]
  rw [writeEntriesLoop_ready entries [] hg]
  simp [closeWrite]

theorem readEntries_encode (entries : List Entry) :
    ∀ (fuel : Nat) (c : Option Nat), entries.length < fuel →
      (∀ e ∈ entries, goodEntry e) → (c = none ∨ c = some 0) →
      readEntries fuel { stream := encodeBody entries ++ [0], current := c, atEof := false } =
        .ok (entries.map normalizeEntry) := by
  induction entries with
  | nil =>
    intro fuel c hfuel hg hc
    match fuel, hfuel with
    | fuel + 1, _ =>
      rcases hc with rfl | rfl <;>
        simp [readEntries, readNextHeader, encodeBody]
  | cons e rest ih =>
    intro fuel c hfuel hg hc
    match fuel, hfuel with
    | fuel + 1, hfuel =>
      obtain ⟨hd, hs, hp⟩ := hg e (by simp)
      have hsize : (representable e.meta).size = e.data.length := by
        simp only [representable]
        rw [Nat.mod_eq_of_lt hs]
        exact hd.symm
      have hparse : parseHeader (headerBytes e.meta ++ (e.data ++ (encodeBody rest ++ [0]))) =
          some (representable e.meta, e.data ++ (encodeBody rest ++ [0])) :=
        parseHeader_append e.meta _ hp
      have hnext : readNextHeader
          { stream := encodeBody (e :: rest) ++ [0], current := c, atEof := false } =
          (.entry (representable e.meta),
           { stream := e.data ++ (encodeBody rest ++ [0]),
             current := some ((representable e.meta).size), atEof := false }) := by
        rcases hc with rfl | rfl <;>
          simp [readNextHeader, encodeBody, encodeEntry, List.append_assoc, hparse]
      have hdrain : readWholeEntryData
          { stream := e.data ++ (encodeBody rest ++ [0]),
            current := some ((representable e.meta).size), atEof := false } =
          (e.data, { stream := encodeBody rest ++ [0], current := some 0, atEof := false }) := by
        simp [readWholeEntryData, readEntryData, hsize, List.take_left, List.drop_left]
      have hfuel₂ : rest.length < fuel := by
        simp only [List.length_cons] at hfuel
        omega
      have hrest : readEntries fuel
          { stream := encodeBody rest ++ [0], current := some 0, atEof := false } =
          .ok (rest.map normalizeEntry) :=
        ih fuel (some 0) hfuel₂ (fun x hx => hg x (by simp [hx])) (Or.inr rfl)
      simp [readEntries, hnext, hdrain, hrest, normalizeEntry]

theorem encodeBody_length_ge (entries : List Entry) :
    entries.length ≤ (encodeBody entries).length := by
  induction entries with
  | nil => simp [encodeBody]
  | cons e rest ih =>
    simp only [encodeBody, encodeEntry, List.length_append, List.length_cons]
    omega

theorem readArchive_encodeBody (entries : List Entry) (hg : ∀ e ∈ entries, goodEntry e) :
    readArchive (encodeBody entries ++ [0]) = .ok (entries.map normalizeEntry) := by
  have hlen := encodeBody_length_ge entries
  rw [readArchive]
  refine readEntries_encode entries _ none ?_ hg (Or.inl rfl)
  simp only [List.length_append, List.length_cons, List.length_nil]
  omega

theorem readNextHeader_eof {s s₂ : ReadSession}
    (h : readNextHeader s = (.endOfArchive, s₂)) : s₂.atEof = true := by
  unfold readNextHeader at h
  by_cases ha : s.atEof
  · rw [if_pos ha] at h
    simp only [Prod.mk.injEq] at h
    rw [← h.2]
    exact ha
  · rw [if_neg ha] at h
    dsimp only at h
    split at h
    · simp at h
    · split at h
      · simp only [Prod.mk.injEq] at h
        rw [← h.2]
      · split at h
        · split at h
          · simp at h
          · simp at h
        · simp at h

theorem readNextHeader_atEof {s : ReadSession} (h : s.atEof = true) :
    readNextHeader s = (.endOfArchive, s) := by
  rw [readNextHeader, if_pos h]

theorem passphraseRun_eq (reqs : List (Option (List Nat))) :
    ∀ (cache : List (List Nat)) (calls : Nat),
      passphraseRun reqs cache calls =
        calls + ((reqs.filterMap id).toFinset \ cache.toFinset).card := by
  induction reqs with
  | nil => intro cache calls; simp [passphraseRun]
  | cons req rest ih =>
    intro cache calls
    match req with
    | none => simp [passphraseRun, ih]
    | some p =>
      by_cases hp : p ∈ cache
      · rw [passphraseRun, if_pos hp, ih]
        have hmem : p ∈ cache.toFinset := List.mem_toFinset.2 hp
        simp [List.filterMap_cons, Finset.insert_sdiff_of_mem _ hmem]
      · rw [passphraseRun, if_neg hp, ih]
        have hmem : p ∉ cache.toFinset := fun hc => hp (List.mem_toFinset.1 hc)
        simp only [List.filterMap_cons, id, List.toFinset_cons]
        rw [Finset.insert_sdiff_of_not_mem _ hmem]
        have hins : (rest.filterMap id).toFinset \ insert p cache.toFinset =
            ((rest.filterMap id).toFinset \ cache.toFinset).erase p := by
          ext x
          simp only [Finset.mem_sdiff, Finset.mem_insert, Finset.mem_erase]
          tauto
        rw [hins]
        have hcard : (insert p ((rest.filterMap id).toFinset \ cache.toFinset)).card =
            (((rest.filterMap id).toFinset \ cache.toFinset).erase p).card + 1 := by
          by_cases hpS : p ∈ (rest.filterMap id).toFinset \ cache.toFinset
          · rw [Finset.insert_eq_self.2 hpS, Finset.card_erase_of_mem hpS]
            have := Finset.card_pos.2 ⟨p, hpS⟩
            omega
          · rw [Finset.card_insert_of_not_mem hpS, Finset.erase_eq_of_not_mem hpS]
        rw [hcard]
        omega

end Core

namespace Jni

theorem releaseByteArrayElements_abort (original mutated : List Int) :
    releaseByteArrayElements original mutated JNI_ABORT = original := by
  rw [releaseByteArrayElements, if_pos rfl]

theorem releaseByteArrayElements_commit (original mutated : List Int) :
    releaseByteArrayElements original mutated JNI_COMMIT_FREE = mutated := by
  rw [releaseByteArrayElements, if_neg (by decide)]

end Jni

/-- Claim C1: for every archive produced through the write-session API
(`writeHeader`, `writeData`, `finishEntry`, `close`) containing N
entries, re-opening the resulting byte stream through the read-session
API (`readNextHeader`, `readData`) yields exactly N entries in the same
order, with `EntryMetadata` equal modulo fields the target format cannot
represent, and with byte-identical entry data. -/
theorem C1_write_read_roundtrip (entries : List Core.Entry)
    (hg : ∀ e ∈ entries, Core.goodEntry e) :
    ∃ stream, Core.writeArchive entries = .ok stream ∧
      Core.readArchive stream = .ok (entries.map Core.normalizeEntry) ∧
      (entries.map Core.normalizeEntry).length = entries.length ∧
      (entries.map Core.normalizeEntry).map Core.Entry.data =
        entries.map Core.Entry.data := by
  refine ⟨Core.encodeBody entries ++ [0], Core.writeArchive_eq entries hg,
    Core.readArchive_encodeBody entries hg, by simp, ?_⟩
  simp [List.map_map, Function.comp, Core.normalizeEntry]

/-- Witness for C1: a concrete two-entry archive round-trips. -/
theorem C1_write_read_roundtrip_witness :
    ∃ stream,
      Core.writeArchive
        [⟨⟨[97], 1, 420, 2, 5, 7, 0, 0⟩, [10, 20]⟩, ⟨⟨[98, 99], 2, 365, 0, 9, 1, 3, 4⟩, []⟩] =
          .ok stream ∧
      Core.readArchive stream =
        .ok (List.map Core.normalizeEntry
          [⟨⟨[97], 1, 420, 2, 5, 7, 0, 0⟩, [10, 20]⟩, ⟨⟨[98, 99], 2, 365, 0, 9, 1, 3, 4⟩, []⟩]) ∧
      (List.map Core.normalizeEntry
        [⟨⟨[97], 1, 420, 2, 5, 7, 0, 0⟩, [10, 20]⟩,
         ⟨⟨[98, 99], 2, 365, 0, 9, 1, 3, 4⟩, []⟩]).length =
        List.length
          [(⟨⟨[97], 1, 420, 2, 5, 7, 0, 0⟩, [10, 20]⟩ : Core.Entry),
           ⟨⟨[98, 99], 2, 365, 0, 9, 1, 3, 4⟩, []⟩] ∧
      (List.map Core.normalizeEntry
        [⟨⟨[97], 1, 420, 2, 5, 7, 0, 0⟩, [10, 20]⟩,
         ⟨⟨[98, 99], 2, 365, 0, 9, 1, 3, 4⟩, []⟩]).map Core.Entry.data =
        List.map Core.Entry.data
          [⟨⟨[97], 1, 420, 2, 5, 7, 0, 0⟩, [10, 20]⟩,
           ⟨⟨[98, 99], 2, 365, 0, 9, 1, 3, 4⟩, []⟩] :=
  C1_write_read_roundtrip _ (by decide)

/-- Claim C2: `readNextHeader` after the last entry yields the
end-of-archive signal without raising an error; repeating the call is a
no-op returning the same signal; and at the JNI boundary end-of-archive
maps to a null entry with no exception, while a failed header read
(negative code) raises an exception — the two are distinguishable. -/
theorem C2_end_of_archive_idempotent (s s₂ : Core.ReadSession) (p : Nat)
    (le : Jni.ArchiveError)
    (h : Core.readNextHeader s = (.endOfArchive, s₂)) :
    Core.readNextHeader s₂ = (.endOfArchive, s₂) ∧
    Jni.readNextHeaderJni Jni.ARCHIVE_EOF p le = (none, none) ∧
    (∀ code : Int, code < 0 → Jni.readNextHeaderJni code p le = (none, some le)) := by
  refine ⟨Core.readNextHeader_atEof (Core.readNextHeader_eof h), rfl, ?_⟩
  intro code hcode
  rw [Jni.readNextHeaderJni, if_pos, if_pos]
  · rw [Jni.ARCHIVE_EOF]
    omega
  · omega

/-- Witness for C2: a stream holding just the end marker. -/
theorem C2_end_of_archive_idempotent_witness :
    Core.readNextHeader { stream := [], current := none, atEof := true } =
      (.endOfArchive, { stream := [], current := none, atEof := true }) ∧
    Jni.readNextHeaderJni Jni.ARCHIVE_EOF 7 { code := -25, message := none } = (none, none) ∧
    (∀ code : Int, code < 0 →
      Jni.readNextHeaderJni code 7 { code := -25, message := none } =
        (none, some { code := -25, message := none })) :=
  C2_end_of_archive_idempotent { stream := [0], current := none, atEof := false }
    { stream := [], current := none, atEof := true } 7 { code := -25, message := none }
    (by decide)

/-- Claim C3: in a write session, a second `writeHeader` without an
intervening `finishEntry` is rejected with a protocol-violation error and
the session — in particular the output written so far — is untouched. -/
theorem C3_double_writeHeader_rejected (s : Core.WriteSession)
    (m₁ m₂ : Core.EntryMetadata) (h : s.state = .ready) :
    (Core.writeHeader s m₁).2 = none ∧
    (Core.writeHeader (Core.writeHeader s m₁).1 m₂).2 = some .protocolViolation ∧
    (Core.writeHeader (Core.writeHeader s m₁).1 m₂).1 = (Core.writeHeader s m₁).1 := by
  simp [Core.writeHeader, h]

/-- Witness for C3: double `writeHeader` on a fresh session. -/
theorem C3_double_writeHeader_rejected_witness :
    (Core.writeHeader { out := [], state := .ready } ⟨[97], 1, 420, 2, 5, 7, 0, 0⟩).2 = none ∧
    (Core.writeHeader
        (Core.writeHeader { out := [], state := .ready } ⟨[97], 1, 420, 2, 5, 7, 0, 0⟩).1
        ⟨[98], 1, 420, 0, 5, 7, 0, 0⟩).2 = some .protocolViolation ∧
    (Core.writeHeader
        (Core.writeHeader { out := [], state := .ready } ⟨[97], 1, 420, 2, 5, 7, 0, 0⟩).1
        ⟨[98], 1, 420, 0, 5, 7, 0, 0⟩).1 =
      (Core.writeHeader { out := [], state := .ready } ⟨[97], 1, 420, 2, 5, 7, 0, 0⟩).1 :=
  C3_double_writeHeader_rejected { out := [], state := .ready } _ _ (by decide)

/-- Claim C4: a data-read call returns the number of bytes actually
transferred — the JNI layer advances the buffer position by exactly the
nonnegative native count, a count of 0 raises no error, a negative native
value is never exposed as a size but converted into a raised exception
with the position untouched (likewise for `seekData`); and at the session
level the count never exceeds the request and 0 signals
end-of-entry-data. -/
theorem C4_read_count_semantics :
    (∀ (buf : Jni.ByteBuffer) (r : Int) (pinned : List Int) (le : Jni.ArchiveError),
        0 ≤ r →
          (Jni.readData buf r pinned le).exception = none ∧
          (Jni.readData buf r pinned le).buffer.position = buf.position + r) ∧
    (∀ (buf : Jni.ByteBuffer) (r : Int) (pinned : List Int) (le : Jni.ArchiveError),
        r < 0 →
          (Jni.readData buf r pinned le).exception = some le ∧
          (Jni.readData buf r pinned le).buffer.position = buf.position) ∧
    (∀ (p : Int) (le : Jni.ArchiveError), p < 0 → (Jni.seekData p le).2 = some le) ∧
    (∀ (s : Core.ReadSession) (maxLen rem : Nat), s.current = some rem →
        rem ≤ s.stream.length →
          (Core.readEntryData s maxLen).1.length = min maxLen rem ∧
          (0 < maxLen → ((Core.readEntryData s maxLen).1.length = 0 ↔ rem = 0))) := by
  refine ⟨?_, ?_, ?_, ?_⟩
  · intro buf r pinned le hr
    rw [Jni.readData]
    rw [if_neg (by omega)]
    exact ⟨rfl, rfl⟩
  · intro buf r pinned le hr
    rw [Jni.readData, if_pos hr]
    exact ⟨rfl, rfl⟩
  · intro p le hp
    rw [Jni.seekData, if_pos hp]
  · intro s maxLen rem hcur hrem
    rw [Core.readEntryData, hcur]
    constructor
    · simp only [List.length_take]
      omega
    · intro hmax
      simp only [List.length_take]
      omega

/-- Witness for C4: concrete reads of 3 bytes, 0 bytes and a failed read. -/
theorem C4_read_count_semantics_witness :
    ((Jni.readData ⟨2, 10, [1, 2, 3]⟩ 3 [9, 9, 9] ⟨-30, none⟩).exception = none ∧
     (Jni.readData ⟨2, 10, [1, 2, 3]⟩ 3 [9, 9, 9] ⟨-30, none⟩).buffer.position = 2 + 3) ∧
    ((Jni.readData ⟨2, 10, [1, 2, 3]⟩ (-1) [9, 9, 9] ⟨-30, none⟩).exception =
        some ⟨-30, none⟩ ∧
     (Jni.readData ⟨2, 10, [1, 2, 3]⟩ (-1) [9, 9, 9] ⟨-30, none⟩).buffer.position = 2) ∧
    (Jni.seekData (-2) ⟨-30, none⟩).2 = some ⟨-30, none⟩ ∧
    ((Core.readEntryData ⟨[5, 6, 7], some 2, false⟩ 9).1.length = min 9 2 ∧
     (0 < 9 → ((Core.readEntryData ⟨[5, 6, 7], some 2, false⟩ 9).1.length = 0 ↔ 2 = 0))) :=
  ⟨C4_read_count_semantics.1 ⟨2, 10, [1, 2, 3]⟩ 3 [9, 9, 9] ⟨-30, none⟩ (by decide),
   C4_read_count_semantics.2.1 ⟨2, 10, [1, 2, 3]⟩ (-1) [9, 9, 9] ⟨-30, none⟩ (by decide),
   C4_read_count_semantics.2.2.1 (-2) ⟨-30, none⟩ (by decide),
   C4_read_count_semantics.2.2.2 ⟨[5, 6, 7], some 2, false⟩ 9 2 (by decide) (by decide)⟩

/-- Claim C5: a callback failing with an exception is recorded as a
session error carrying the provider's code and message — the exception's
own code when it is an archive exception, `ARCHIVE_FATAL` otherwise, with
the throwable's message as the session error message; with no pending
exception the error state is untouched. -/
theorem C5_exception_becomes_session_error (t : Jni.Throwable)
    (le : Option Jni.ArchiveError) :
    Jni.setArchiveErrorFromException (some t) le =
      (true, some { code := if t.isArchive then t.code else Jni.ARCHIVE_FATAL,
                    message := t.message }) ∧
    Jni.setArchiveErrorFromException none le = (false, le) :=
  ⟨rfl, rfl⟩

/-- Claim C6: when a passphrase is required and not preset, the session
invokes the passphrase provider once per distinct required secret and
caches the result for the remainder of the session — the number of
provider invocations over a whole archive equals the number of distinct
secrets its protected entries require, so the provider is never invoked
again for a secret already returned. -/
theorem C6_passphrase_provider_once_per_secret (reqs : List (Option (List Nat))) :
    Core.passphraseRun reqs [] 0 = (reqs.filterMap id).toFinset.card := by
  rw [Core.passphraseRun_eq]
  simp

/-- Claim C7: the explicit close/free operations release every
session-owned resource (held references, pinned buffers, cached
passphrase for `free`; pinned buffers and cached passphrase for
`readClose`) even on error paths — the release runs unconditionally and
only afterwards is the underlying call's error reported. -/
theorem C7_close_free_release_resources (r : Int) (d : Jni.JniData)
    (le : Jni.ArchiveError) :
    (Jni.archiveFree r d le).1.released ∧
    ((Jni.archiveFree r d le).2 = if r ≠ 0 then some le else none) ∧
    ((Jni.readClose r d le).1.openMemoryArray = none ∧
     (Jni.readClose r d le).1.openMemoryJavaArray = none ∧
     (Jni.readClose r d le).1.writeOpenMemoryJavaBuffer = none ∧
     (Jni.readClose r d le).1.readArray = none ∧
     (Jni.readClose r d le).1.readJavaArray = none ∧
     (Jni.readClose r d le).1.passphrase = none) ∧
    ((Jni.readClose r d le).2 = if r ≠ 0 then some le else none) := by
  refine ⟨?_, rfl, ⟨rfl, rfl, rfl, rfl, rfl, rfl⟩, rfl⟩
  simp [Jni.archiveFree, Jni.freeArchiveJniData, Jni.JniData.released]

/-- Claim C8: `writeData` never modifies the caller's buffer contents
(the pinned array is released in discard mode); on success the position
advances by exactly the accepted count with the limit unchanged; on a
negative native return the buffer is fully unchanged and an error is
raised. -/
theorem C8_writeData_frame (buf : Jni.ByteBuffer) (r : Int) (pinned : List Int)
    (le : Jni.ArchiveError) :
    (Jni.writeData buf r pinned le).buffer.contents = buf.contents ∧
    (Jni.writeData buf r pinned le).buffer.limit = buf.limit ∧
    (0 ≤ r →
      (Jni.writeData buf r pinned le).buffer.position = buf.position + r ∧
      (Jni.writeData buf r pinned le).exception = none) ∧
    (r < 0 →
      (Jni.writeData buf r pinned le).buffer = buf ∧
      (Jni.writeData buf r pinned le).exception = some le) := by
  have hcontents : ∀ m, Jni.releaseByteArrayElements buf.contents m Jni.JNI_ABORT =
      buf.contents := fun m => Jni.releaseByteArrayElements_abort buf.contents m
  refine ⟨?_, ?_, fun h => ?_, fun h => ?_⟩
  · by_cases hr : r < 0 <;> simp [Jni.writeData, hcontents, hr]
  · by_cases hr : r < 0 <;> simp [Jni.writeData, hcontents, hr]
  · have hr : ¬ r < 0 := by omega
    simp [Jni.writeData, hcontents, hr]
  · simp [Jni.writeData, hcontents, h]

/-- Witness for C8: a successful 2-byte write and a failed write on the
same buffer. -/
theorem C8_writeData_frame_witness :
    ((Jni.writeData ⟨1, 4, [8, 9, 7]⟩ 2 [0, 0, 0] ⟨-30, none⟩).buffer.contents = [8, 9, 7] ∧
     (Jni.writeData ⟨1, 4, [8, 9, 7]⟩ 2 [0, 0, 0] ⟨-30, none⟩).buffer.position = 1 + 2 ∧
     (Jni.writeData ⟨1, 4, [8, 9, 7]⟩ 2 [0, 0, 0] ⟨-30, none⟩).exception = none) ∧
    ((Jni.writeData ⟨1, 4, [8, 9, 7]⟩ (-1) [0, 0, 0] ⟨-30, none⟩).buffer = ⟨1, 4, [8, 9, 7]⟩ ∧
     (Jni.writeData ⟨1, 4, [8, 9, 7]⟩ (-1) [0, 0, 0] ⟨-30, none⟩).exception =
       some ⟨-30, none⟩) :=
  ⟨⟨(C8_writeData_frame ⟨1, 4, [8, 9, 7]⟩ 2 [0, 0, 0] ⟨-30, none⟩).1,
    ((C8_writeData_frame ⟨1, 4, [8, 9, 7]⟩ 2 [0, 0, 0] ⟨-30, none⟩).2.2.1 (by decide)).1,
    ((C8_writeData_frame ⟨1, 4, [8, 9, 7]⟩ 2 [0, 0, 0] ⟨-30, none⟩).2.2.1 (by decide)).2⟩,
   (C8_writeData_frame ⟨1, 4, [8, 9, 7]⟩ (-1) [0, 0, 0] ⟨-30, none⟩).2.2.2 (by decide)⟩

/-- Claim C9: operations taking an optional byte-string argument accept a
null array as meaning no string — the null is passed through to the
underlying call as an absent value rather than rejected — and a
conversion error is raised (before the underlying call) only for a
non-null argument that failed to convert. -/
theorem C9_null_string_passthrough (bytes : List Int) (mOk : Bool) (r : Int)
    (le : Jni.ArchiveError) :
    Jni.readOpenFileName none mOk r le =
      { nativeCalled := true, nativeArg := none,
        exception := if r ≠ 0 then some le else none } ∧
    Jni.readAddPassphrase none mOk r le =
      { nativeCalled := true, nativeArg := none,
        exception := if r ≠ 0 then some le else none } ∧
    Jni.readOpenFileName (some bytes) true r le =
      { nativeCalled := true, nativeArg := some bytes,
        exception := if r ≠ 0 then some le else none } ∧
    (Jni.readOpenFileName (some bytes) false r le).nativeCalled = false ∧
    (Jni.readOpenFileName (some bytes) false r le).exception =
      some { code := Jni.ARCHIVE_FATAL, message := some "mallocStringFromBytes" } ∧
    (∀ (jb : Option (List Int)) (mOk₂ : Bool),
      (Jni.callWithOptionalString jb mOk₂ r le).nativeCalled = false →
        jb.isSome = true) := by
  refine ⟨?_, ?_, ?_, ?_, ?_, ?_⟩
  · simp [Jni.readOpenFileName, Jni.callWithOptionalString, Jni.mallocStringFromBytes]
  · simp [Jni.readAddPassphrase, Jni.callWithOptionalString, Jni.mallocStringFromBytes]
  · simp [Jni.readOpenFileName, Jni.callWithOptionalString, Jni.mallocStringFromBytes]
  · simp [Jni.readOpenFileName, Jni.callWithOptionalString, Jni.mallocStringFromBytes]
  · simp [Jni.readOpenFileName, Jni.callWithOptionalString, Jni.mallocStringFromBytes]
  · intro jb mOk₂ h
    match jb with
    | some b => rfl
    | none => simp [Jni.callWithOptionalString, Jni.mallocStringFromBytes] at h

/-- Witness for C9: a null file name is passed through without error and
a failed non-null conversion is a non-null argument. -/
theorem C9_null_string_passthrough_witness :
    Jni.readOpenFileName none true 0 ⟨-30, none⟩ =
      { nativeCalled := true, nativeArg := none, exception := none } ∧
    (some [5] : Option (List Int)).isSome = true :=
  ⟨by simpa using (C9_null_string_passthrough [5] true 0 ⟨-30, none⟩).1,
   (C9_null_string_passthrough [5] true 0 ⟨-30, none⟩).2.2.2.2.2 (some [5]) false (by decide)⟩

/-- Claim C10: every callback setter keeps at most one live reference per
slot — on success the previous reference is released and the new one
installed, on failure of the underlying set call (or of the reference
creation) the fresh reference is released and the previously installed
callback remains, state unchanged. -/
theorem C10_callback_slot_single_reference (st : Jni.CallbackSlotState)
    (jc refOk : Bool) (newRef : Nat) (r : Int) (le : Jni.ArchiveError)
    (hwf : st.wf) (hfresh : newRef ∉ st.live) :
    (Jni.setCallbackSlot st jc newRef refOk r le).1.wf ∧
    ((Jni.setCallbackSlot st jc newRef refOk r le).2.isSome = true →
      (Jni.setCallbackSlot st jc newRef refOk r le).1 = st) ∧
    (r = 0 → (jc = true → refOk = true) →
      (Jni.setCallbackSlot st jc newRef refOk r le).1.slot =
        (if jc then some newRef else none) ∧
      (Jni.setCallbackSlot st jc newRef refOk r le).2 = none ∧
      ∀ old, st.slot = some old →
        old ∉ (Jni.setCallbackSlot st jc newRef refOk r le).1.live) := by
  obtain ⟨slot, live⟩ := st
  rcases slot with - | old
  · have hl : live = [] := hwf
    subst hl
    cases jc <;> cases refOk <;> by_cases hr : r = 0 <;>
      simp_all [Jni.setCallbackSlot, Jni.deleteGlobalRef, Jni.CallbackSlotState.wf]
  · have hl : live = [old] := hwf
    subst hl
    have hne : newRef ≠ old := by
      intro hEq
      exact hfresh (by simp [hEq])
    cases jc <;> cases refOk <;> by_cases hr : r = 0 <;>
      simp_all [Jni.setCallbackSlot, Jni.deleteGlobalRef, Jni.CallbackSlotState.wf,
        List.erase_cons, Ne.symm hne]

/-- Witness for C10: replacing an installed callback reference 5 by a
fresh reference 9 with a successful native call. -/
theorem C10_callback_slot_single_reference_witness :
    (Jni.setCallbackSlot ⟨some 5, [5]⟩ true 9 true 0 ⟨-30, none⟩).1.wf ∧
    ((Jni.setCallbackSlot ⟨some 5, [5]⟩ true 9 true 0 ⟨-30, none⟩).2.isSome = true →
      (Jni.setCallbackSlot ⟨some 5, [5]⟩ true 9 true 0 ⟨-30, none⟩).1 = ⟨some 5, [5]⟩) ∧
    ((0 : Int) = 0 → (true = true → true = true) →
      (Jni.setCallbackSlot ⟨some 5, [5]⟩ true 9 true 0 ⟨-30, none⟩).1.slot =
        (if true then some 9 else none) ∧
      (Jni.setCallbackSlot ⟨some 5, [5]⟩ true 9 true 0 ⟨-30, none⟩).2 = none ∧
      ∀ old, (⟨some 5, [5]⟩ : Jni.CallbackSlotState).slot = some old →
        old ∉ (Jni.setCallbackSlot ⟨some 5, [5]⟩ true 9 true 0 ⟨-30, none⟩).1.live) :=
  C10_callback_slot_single_reference ⟨some 5, [5]⟩ true true 9 0 ⟨-30, none⟩
    (by decide) (by decide)
